import Mathlib

/-!
Shallow embedding of the worker runtime in `luigi/worker.py`
(dependency enqueuing, the per-task executors, the reaper, the
keep-alive policy and the reschedule bookkeeping), together with
theorems checking the natural-language specification against it.

Python-specific conventions used throughout:
* an attribute read that can hit a never-assigned attribute is modelled
  as an `Option` field (`none` = the attribute was never set) and the
  read as `Except String _` (`.error _` = `AttributeError`);
* Python truthiness on integers is `≠ 0`, on lists `≠ []`;
* exceptions escaping a function are modelled with `Except`.
-/

namespace Luigi

/-- Task status constants imported from `luigi.scheduler`. -/
inductive Status where
  | PENDING
  | RUNNING
  | DONE
  | FAILED
  | SUSPENDED
  | DISABLED
deriving DecidableEq, Repr

/-- Event kinds from `luigi.event.Event` that the worker triggers. -/
inductive EventKind where
  | START
  | PROCESSING_TIME
  | SUCCESS
  | FAILURE
  | DEPENDENCY_DISCOVERED
  | DEPENDENCY_MISSING
  | DEPENDENCY_PRESENT
  | BROKEN_TASK
deriving DecidableEq, Repr

/-- The tuple an executor puts on the result queue:
`(task_id, status, error_message, missing, new_deps)` where each new dep
is a `(task_module, task_family, to_str_params())` triple. -/
structure Outcome where
  task_id : String
  status : Status
  expl : String
  missing : List String
  new_deps : List (String × String × List (String × String))
deriving DecidableEq, Repr

/-! ## Worker attribute state (`Worker.__init__`)

`__init__` stores the `worker-count-uniques` configuration value in the
attribute `_count_uniques` and the `max-reschedules` value in
`_max_reschedules`.  The attribute `count_uniques` (read by
`_keep_alive`) and the attribute `_Worker__max_reschedules` (the
name-mangled target of `self.__max_reschedules` read by
`_handle_next_task`) are never assigned anywhere in the class, so both
stay `none` in any state `__init__` can produce. -/

structure WorkerState where
  keep_alive : Bool
  assistant : Bool
  /-- attribute `_count_uniques` (assigned at worker.py:306) -/
  underscore_count_uniques : Bool
  /-- attribute `count_uniques` (read at worker.py:746, never assigned) -/
  count_uniques_attr : Option Bool
  /-- attribute `_max_reschedules` (assigned at worker.py:314) -/
  underscore_max_reschedules : Nat
  /-- attribute `_Worker__max_reschedules`: what `self.__max_reschedules`
  (worker.py:714) resolves to after name mangling; never assigned -/
  mangled_max_reschedules : Option Nat
deriving Repr

/-- Embedding of `Worker.__init__` with the configuration already resolved: the
relevant attribute assignments of worker.py lines 298-314 and 326. -/
def workerInit (keep_alive count_uniques : Bool) (max_reschedules : Nat)
    (assistant : Bool) : WorkerState :=
  { keep_alive := keep_alive
    assistant := assistant
    underscore_count_uniques := count_uniques
    count_uniques_attr := none
    underscore_max_reschedules := max_reschedules
    mangled_max_reschedules := none }

/-- Reading `self.count_uniques`: `AttributeError` when unset. -/
def getCountUniques (w : WorkerState) : Except String Bool :=
  match w.count_uniques_attr with
  | some b => .ok b
  | none => .error "AttributeError: count_uniques"

/-- Reading `self.__max_reschedules` (i.e. `_Worker__max_reschedules`). -/
def getMangledMaxReschedules (w : WorkerState) : Except String Nat :=
  match w.mangled_max_reschedules with
  | some n => .ok n
  | none => .error "AttributeError: _Worker__max_reschedules"

/-- Embedding of `Worker._keep_alive(n_pending_tasks, n_unique_pending)`
(worker.py:730-746).  The Python body is

`return n_pending_tasks and (n_unique_pending or not self.count_uniques)`

with short-circuit evaluation, so `self.count_uniques` is only read when
`n_pending_tasks` is truthy and `n_unique_pending` is falsy. -/
def keepAliveCheck (w : WorkerState) (n_pending_tasks n_unique_pending : Nat) :
    Except String Bool :=
  if !w.keep_alive then
    .ok false
  else if w.assistant then
    .ok true
  else if n_pending_tasks = 0 then
    .ok false
  else if n_unique_pending ≠ 0 then
    .ok true
  else
    match getCountUniques w with
    | .error e => .error e
    | .ok cu => .ok !cu

/-! ## Reschedule bookkeeping (`Worker._handle_next_task`, worker.py:707-717)

`unfulfilled_counts` is a `defaultdict(int)`, modelled as an association
list with lookup defaulting to `0`. -/

/-- Lookup in `unfulfilled_counts` (default `0`). -/
def getCount (counts : List (String × Nat)) (id : String) : Nat :=
  match counts.lookup id with
  | some n => n
  | none => 0

/-- Embedding of `self.unfulfilled_counts[task_id] += 1`. -/
def bumpCount (counts : List (String × Nat)) (id : String) :
    List (String × Nat) :=
  (id, getCount counts id + 1) :: counts.filter (fun p => p.1 ≠ id)

/-- The loop body of worker.py:711-715: for each id in `missing`, bump
its unfulfilled count, then compare against `self.__max_reschedules`
(which raises `AttributeError` when that attribute was never set).
Returns the updated counts and the `reschedule` flag. -/
def missingLoop (w : WorkerState) :
    List (String × Nat) → Bool → List String →
    Except String (List (String × Nat) × Bool)
  | counts, reschedule, [] => .ok (counts, reschedule)
  | counts, reschedule, id :: rest =>
    let counts' := bumpCount counts id
    match getMangledMaxReschedules w with
    | .error e => .error e
    | .ok m =>
      missingLoop w counts'
        (if getCount counts' id > m then false else reschedule) rest

/-- The `if missing:` block of worker.py:707-717.  Returns the updated
counts and whether `self.add(task)` is invoked to reschedule. -/
def handleMissing (w : WorkerState) (counts : List (String × Nat))
    (missing : List String) : Except String (List (String × Nat) × Bool) :=
  if missing.isEmpty then .ok (counts, false)
  else missingLoop w counts true missing

/-! ## Executors (`ExternalTaskProcess.run`, `TaskProcess.run`) -/

/-- Embedding of `ExternalTaskProcess.run` (worker.py:96-133), with the calls out to
user code passed in as arguments: `complete` is what `self.task.complete()`
does (`.error _` = it raised), `on_success_json` is
`json.dumps(self.task.on_success())` and `on_failure_wrapped` is
`notifications.wrap_traceback(self.task.on_failure(ex))`.  Returns the
events triggered on the task, in order, and the tuple put on the result
queue by the `finally` block. -/
def externalTaskRun (tid : String) (complete : Except String Bool)
    (on_success_json on_failure_wrapped : String) :
    List EventKind × Outcome :=
  match complete with
  | .ok b =>
    ([.START, .PROCESSING_TIME, .SUCCESS],
     { task_id := tid
       status := if b then .DONE else .FAILED
       expl := on_success_json
       missing := []
       new_deps := [] })
  | .error _ =>
    ([.START, .PROCESSING_TIME, .FAILURE],
     { task_id := tid
       status := .FAILED
       expl := on_failure_wrapped
       missing := []
       new_deps := [] })

/-- A declared dependency of an ordinary task, as the executor sees it:
its `task_id` and what its `complete()` returns. -/
structure DepCheck where
  task_id : String
  complete : Bool
deriving DecidableEq, Repr

/-- worker.py:157: `missing = [dep.task_id for dep in self.task.deps()
if not dep.complete()]`. -/
def missingOf (deps : List DepCheck) : List String :=
  (deps.filter (fun d => !d.complete)).map (fun d => d.task_id)

/-- Comma-separated join of the missing ids, as the source builds with
the string join method. -/
def joinComma : List String → String
  | [] => ""
  | [x] => x
  | x :: xs => x ++ ", " ++ joinComma xs

/-- The message of the `RuntimeError` raised at worker.py:159-160:
the format string `Unfulfilled %s at run time: %s` where the first `%s`
is the word dependency for a single missing id and dependencies
otherwise. -/
def unfulfilledMsg (missing : List String) : String :=
  let deps := if missing.length = 1 then "dependency" else "dependencies"
  "Unfulfilled " ++ deps ++ " at run time: " ++ joinComma missing

/-- Modelled from the spec: `notifications.wrap_traceback` and the
default `Task.on_failure` are outside `src/`; per §4.4 item 7 the
explanation is "the wrapped traceback from `on_failure(ex)`", which
embeds the exception message in the formatted traceback. -/
def wrapOnFailure (msg : String) : String :=
  "Traceback (most recent call last):\nRuntimeError: " ++ msg ++ "\n"

/-- The run-time dependency re-check at the top of `TaskProcess.run`
(worker.py:155-160) together with the handlers it lands in
(worker.py:205-214): `none` means every declared dep was complete and
execution proceeds to `self.task.run()`; `some o` means the check raised
and `o` is the tuple the `finally` block puts on the result queue. -/
def taskProcessCheckDeps (tid : String) (deps : List DepCheck) :
    Option Outcome :=
  let missing := missingOf deps
  if missing.isEmpty then none
  else some
    { task_id := tid
      status := .FAILED
      expl := wrapOnFailure (unfulfilledMsg missing)
      missing := missing
      new_deps := [] }

/-- One task in a batch yielded by a generator-returning `run()`:
identity triple plus what its `complete()` returns. -/
structure BatchTask where
  task_module : String
  task_family : String
  params : List (String × String)
  complete : Bool
deriving DecidableEq, Repr

/-- The triple `(t.task_module, t.task_family, t.to_str_params())`
(worker.py:180). -/
def toTriple (t : BatchTask) : String × String × List (String × String) :=
  (t.task_module, t.task_family, t.params)

/-- The generator-driving loop of `TaskProcess.run` (worker.py:166-201
plus the `finally` at 212-214) for a task whose run-time dependency check
passed (`missing = []`).  The generator is modelled as the list of
batches it yields, each already flattened by `flatten(requires)`.  For
each batch: if all its tasks are `complete()` the loop puts an interim
`RUNNING` tuple carrying the batch's triples as `new_deps` and resets
`new_deps` to `[]` before continuing; otherwise it returns, and the outer
`finally` puts a `SUSPENDED` tuple carrying the triples.  On
`StopIteration` the task finishes and the `finally` puts a `DONE` tuple
whose `new_deps` is the last reset value `[]`. -/
def taskProcessGenRun (tid : String) (on_success_json : String) :
    List (List BatchTask) → List Outcome
  | [] =>
    [{ task_id := tid, status := .DONE, expl := on_success_json,
       missing := [], new_deps := [] }]
  | batch :: rest =>
    let new_deps := batch.map toTriple
    if batch.all (fun t => t.complete) then
      { task_id := tid, status := .RUNNING, expl := "", missing := [],
        new_deps := new_deps } :: taskProcessGenRun tid on_success_json rest
    else
      [{ task_id := tid, status := .SUSPENDED, expl := "", missing := [],
         new_deps := new_deps }]

/-! ## Timeout and the reaper (`AbstractTaskProcess.__init__`,
`Worker._purge_children`) -/

/-- worker.py:81-83: the per-task `worker_timeout` overrides the
worker-wide one when not `None`, and
`self.timeout_time = time.time() + worker_timeout if worker_timeout else None`
(so a zero effective timeout leaves the deadline unset). -/
def timeoutTime (now : Nat) (worker_timeout : Nat)
    (task_worker_timeout : Option Nat) : Option Nat :=
  let wt := match task_worker_timeout with
    | some t => t
    | none => worker_timeout
  if wt ≠ 0 then some (now + wt) else none

/-- What the reaper decides for one entry of `_running_tasks`
(worker.py:646-656): `exited` covers `not p.is_alive()` with a truthy
`p.exitcode`; the timeout branch fires when a deadline is set, `now` is
past it and the process is still alive.  Returns `none` (`continue`), or
`some (terminated, outcome)` where `terminated` records whether
`p.terminate()` was called and `outcome` is the tuple put on the result
queue. -/
def purgeChild (now : Nat) (tid : String) (alive : Bool) (exitcode : Int)
    (timeout_time : Option Nat) : Option (Bool × Outcome) :=
  if !alive ∧ exitcode ≠ 0 then
    some (false,
      { task_id := tid, status := .FAILED
        expl := "Worker task " ++ tid ++ " died unexpectedly with exit code "
          ++ toString exitcode
        missing := [], new_deps := [] })
  else if (match timeout_time with
           | some t => decide (now > t)
           | none => false) && alive then
    some (true,
      { task_id := tid, status := .FAILED
        expl := "Worker task " ++ tid ++ " timed out and was terminated."
        missing := [], new_deps := [] })
  else
    none

/-! ## Dependency enqueuing (`Worker.add`, `Worker._add`,
`Worker._check_complete_value`)

`check_complete` (worker.py:257-266) puts `task.complete()`'s return
value on the queue, or a `TracebackWrapper` when it raised.  A returned
value that is neither `True` nor `False` (and not a wrapper) makes
`_check_complete_value` raise. -/

/-- The value `check_complete` pairs with a task on the work queue. -/
inductive CompleteValue where
  /-- the call `complete()` returned `True` -/
  | vTrue
  /-- the call `complete()` returned `False` -/
  | vFalse
  /-- the call `complete()` raised; the traceback travels as a `TracebackWrapper` -/
  | vTraceback (trace : String)
  /-- the call `complete()` returned some non-boolean value -/
  | vOther (rep : String)
deriving DecidableEq, Repr

/-- A task node as the dependency enqueuer sees it.  `deps` holds the
`task_id`s of `task.deps()`, resolved against an environment list, so
that cyclic graphs (built from tasks with identical `task_id`s) are
representable. -/
structure GTask where
  task_id : String
  /-- what `check_complete` will report for this task -/
  complete_value : CompleteValue
  /-- whether `task.run != NotImplemented` -/
  has_run : Bool
  disabled : Bool
  deps : List String
deriving DecidableEq, Repr

/-- Resolve a dependency id against the graph environment. -/
def envLookup (env : List GTask) (id : String) : Option GTask :=
  env.find? (fun t => t.task_id == id)

/-- The branch decision of `_add` (worker.py:510-530) for a task whose
complete value passed `_check_complete_value`: returns the `deps` value
handed to the scheduler (`none` = Python `None`), the status (after the
`task.disabled` override of worker.py:529-530), the `runnable` flag and
the events triggered. -/
def addDecision (is_complete has_run disabled retry_external_tasks : Bool)
    (deps : List String) :
    Option (List String) × Status × Bool × List EventKind :=
  let (d, status, runnable, evs) :=
    if is_complete then
      (none, Status.DONE, false, [EventKind.DEPENDENCY_PRESENT])
    else if !has_run then
      (none, Status.PENDING, retry_external_tasks,
       [EventKind.DEPENDENCY_MISSING])
    else
      (some deps, Status.PENDING, true,
       deps.map (fun _ => EventKind.DEPENDENCY_DISCOVERED))
  (d, if disabled then Status.DISABLED else status, runnable, evs)

/-- State of the drain loop in `Worker.add` (worker.py:460-473).  The
single-process `DequeQueue` appends and pops at the same end, so the
queue is a stack with the head as that end. -/
structure AddState where
  queue : List (GTask × CompleteValue)
  seen : List String
  /-- ids registered via `_scheduled_tasks[...] = task` + `add_task`,
  in registration order -/
  scheduled : List String
  events : List (String × EventKind)
  add_succeeded : Bool
deriving Repr

/-- The consumer side of `_add`'s yields (worker.py:468-473): each
yielded dep whose `task_id` is not in `seen` is marked seen and a fresh
`check_complete` result for it is pushed on the queue. -/
def enqueueDeps (env : List GTask) : AddState → List String → AddState
  | s, [] => s
  | s, id :: rest =>
    match envLookup env id with
    | none => enqueueDeps env s rest
    | some d =>
      if s.seen.contains d.task_id then
        enqueueDeps env s rest
      else
        enqueueDeps env
          { s with
            seen := d.task_id :: s.seen
            queue := (d, d.complete_value) :: s.queue } rest

/-- Driving one popped `(task, is_complete)` pair through `_add`
(worker.py:484-548): the task-limit guard, the
`_check_complete_value` handling (a `TracebackWrapper` raises
`AsyncCompletionException`, any other non-boolean raises `Exception`;
both land in the `formatted_traceback is not None` branch that flips
`add_succeeded`, emits `DEPENDENCY_MISSING` and returns), then the
branch decision, dep yielding and registration. -/
def addItem (env : List GTask) (task_limit : Option Nat)
    (retry_external_tasks : Bool) (s : AddState) (task : GTask)
    (icv : CompleteValue) : AddState :=
  if (match task_limit with
      | some l => decide (l ≤ s.scheduled.length)
      | none => false) then
    s
  else
    match icv with
    | .vTraceback _ =>
      { s with
        add_succeeded := false
        events := s.events ++ [(task.task_id, .DEPENDENCY_MISSING)] }
    | .vOther _ =>
      { s with
        add_succeeded := false
        events := s.events ++ [(task.task_id, .DEPENDENCY_MISSING)] }
    | icv =>
      let is_complete := icv matches .vTrue
      let (d, _, _, evs) :=
        addDecision is_complete task.has_run task.disabled
          retry_external_tasks task.deps
      let s := { s with events := s.events ++ evs.map (task.task_id, ·) }
      let s := match d with
        | none => s
        | some ds => enqueueDeps env s ds
      { s with scheduled := s.scheduled ++ [task.task_id] }

/-- The `while queue_size:` drain loop of `Worker.add`
(worker.py:464-473), fuelled.  The boolean reports whether the queue
drained within the fuel (`addLoop` with enough fuel always reports
`true`; see the termination theorem). -/
def addLoop (env : List GTask) (task_limit : Option Nat)
    (retry_external_tasks : Bool) : Nat → AddState → AddState × Bool
  | 0, s => (s, s.queue.isEmpty)
  | fuel + 1, s =>
    match s.queue with
    | [] => (s, true)
    | (task, icv) :: rest =>
      addLoop env task_limit retry_external_tasks fuel
        (addItem env task_limit retry_external_tasks
          { s with queue := rest } task icv)

/-- Embedding of `Worker.add(root)` on the single-process pool: seed `seen` with the
root's id, check the root's completeness, drain. -/
def workerAdd (env : List GTask) (task_limit : Option Nat)
    (retry_external_tasks : Bool) (fuel : Nat) (root : GTask) :
    AddState × Bool :=
  addLoop env task_limit retry_external_tasks fuel
    { queue := [(root, root.complete_value)]
      seen := [root.task_id]
      scheduled := []
      events := []
      add_succeeded := true }

/-- The `_add` decision as claim C7 words it, with each component
computed independently: status is `DONE` when complete else `PENDING`,
overridden to `DISABLED` for a disabled task; `runnable` is false when
complete, the `retry-external-tasks` configuration value for an
incomplete external task, true otherwise; deps are registered only for
an incomplete task with a `run()` body; `DEPENDENCY_PRESENT` is emitted
when complete, `DEPENDENCY_MISSING` for an incomplete external task,
and `DEPENDENCY_DISCOVERED` once per dep otherwise. -/
def addDecisionSpec (is_complete has_run disabled retry_external_tasks : Bool)
    (deps : List String) :
    Option (List String) × Status × Bool × List EventKind :=
  (if is_complete || !has_run then none else some deps,
   if disabled then .DISABLED
   else if is_complete then .DONE else .PENDING,
   if is_complete then false
   else if !has_run then retry_external_tasks else true,
   if is_complete then [.DEPENDENCY_PRESENT]
   else if !has_run then [.DEPENDENCY_MISSING]
   else deps.map (fun _ => .DEPENDENCY_DISCOVERED))


/-! ### Helper lemmas about the `Worker.add` drain loop -/

/-- The ids of the tasks currently on the work queue. -/
def queueIds (s : AddState) : List String :=
  s.queue.map (fun p => p.1.task_id)

/-- How many environment entries have an id not yet in `seen`
(duplicates counted). -/
def unseenCount (env : List GTask) (seen : List String) : Nat :=
  ((env.map (fun t => t.task_id)).filter
    (fun id => !seen.contains id)).length

/-- Termination potential of a loop state: each iteration pops one
queue entry, and every push is paid for by an id leaving the unseen
pool. -/
def phi (env : List GTask) (s : AddState) : Nat :=
  s.queue.length + 2 * unseenCount env s.seen


/-- Task `A` of the cycle scenario: incomplete, has a `run()` body,
requires `B`. -/
def taskA : GTask :=
  { task_id := "A", complete_value := .vFalse, has_run := true,
    disabled := false, deps := ["B"] }

/-- Task `B` of the cycle scenario: incomplete, has a `run()` body,
requires `A` — closing the cycle `A → B → A`. -/
def taskB : GTask :=
  { task_id := "B", complete_value := .vFalse, has_run := true,
    disabled := false, deps := ["A"] }

/-- The two-task cyclic dependency graph. -/
def cycleEnv : List GTask := [taskA, taskB]

end Luigi

namespace Luigi

/-! ## Theorems -/

/-- C1: `Worker._keep_alive` follows the specified policy on the
branches it completes (`keep_alive` unset → false; assistant → true;
no pending tasks → false; pending and unique-pending both positive →
true), but on a worker produced by `__init__` the remaining case —
`keep_alive` configured, not an assistant, pending tasks but no
unique pending — reads the never-assigned attribute `count_uniques`
(the configured value lives in `_count_uniques`) and raises
`AttributeError` instead of returning a value. -/
theorem keepAliveCheck_cases :
    ∀ (cu : Bool) (mr np nu : Nat) (assist : Bool),
      keepAliveCheck (workerInit false cu mr assist) np nu = .ok false
    ∧ keepAliveCheck (workerInit true cu mr true) np nu = .ok true
    ∧ keepAliveCheck (workerInit true cu mr false) 0 nu = .ok false
    ∧ keepAliveCheck (workerInit true cu mr false) (np + 1) (nu + 1)
        = .ok true
    ∧ keepAliveCheck (workerInit true cu mr false) (np + 1) 0
        = .error "AttributeError: count_uniques" := by
  intro cu mr np nu assist
  refine ⟨?_, ?_, ?_, ?_, ?_⟩ <;>
    simp [keepAliveCheck, workerInit, getCountUniques]

/-- C2: whenever `_handle_next_task` reaches the `if missing:` block
with a non-empty `missing` list on a worker produced by `__init__`,
the comparison against `self.__max_reschedules` (name-mangled to
`_Worker__max_reschedules`, which `__init__` never assigns — it sets
`_max_reschedules`) raises `AttributeError`, so the handler never
completes the bookkeeping or reschedules the task. -/
theorem handleMissing_raises :
    ∀ (ka cu : Bool) (mr : Nat) (assist : Bool)
      (counts : List (String × Nat)) (id : String) (rest : List String),
      handleMissing (workerInit ka cu mr assist) counts (id :: rest)
        = .error "AttributeError: _Worker__max_reschedules" := by
  intro ka cu mr assist counts id rest
  simp [handleMissing, missingLoop, getMangledMaxReschedules, workerInit]

/-- C4 counterexample: an external task whose `complete()` returns
`False` without raising gets status `FAILED`, yet the events triggered
are `START, PROCESSING_TIME, SUCCESS` — `FAILURE` is not among them,
contrary to the claim that `FAILURE` is emitted when the outcome is
`FAILED`. -/
theorem externalTaskRun_success_event_on_failed :
    externalTaskRun "T" (.ok false) "null" "tb"
      = ([.START, .PROCESSING_TIME, .SUCCESS],
         { task_id := "T", status := .FAILED, expl := "null",
           missing := [], new_deps := [] })
  ∧ EventKind.FAILURE ∉
      [EventKind.START, EventKind.PROCESSING_TIME, EventKind.SUCCESS] :=
  ⟨rfl, by decide⟩

/-- C4 amended: for an external task whose `complete()` returns without
raising, the outcome status is `DONE` iff it returned true and `FAILED`
otherwise; `PROCESSING_TIME` is always emitted; but `SUCCESS` is emitted
exactly when `complete()` returned (regardless of the boolean, hence
also when the outcome is `FAILED`), and `FAILURE` exactly when it
raised. -/
theorem externalTaskRun_events :
    ∀ (tid sj fw : String) (c : Except String Bool),
      EventKind.PROCESSING_TIME ∈ (externalTaskRun tid c sj fw).1
    ∧ ((externalTaskRun tid c sj fw).2.status = .DONE ↔ c = .ok true)
    ∧ ((externalTaskRun tid c sj fw).2.status = .FAILED ↔ c ≠ .ok true)
    ∧ (EventKind.SUCCESS ∈ (externalTaskRun tid c sj fw).1
        ↔ ∃ b, c = .ok b)
    ∧ (EventKind.FAILURE ∈ (externalTaskRun tid c sj fw).1
        ↔ ∃ e, c = .error e) := by
  intro tid sj fw c
  match c with
  | .ok true => refine ⟨?_, ?_, ?_, ?_, ?_⟩ <;> simp [externalTaskRun]
  | .ok false => refine ⟨?_, ?_, ?_, ?_, ?_⟩ <;> simp [externalTaskRun]
  | .error e => refine ⟨?_, ?_, ?_, ?_, ?_⟩ <;> simp [externalTaskRun]

/-- C5: a positive effective timeout (worker-wide `wt + 1`, or a
per-task override `d + 1`) sets the deadline `now + timeout` at
construction; the reaper terminates a still-alive executor once the
current time passes the deadline, synthesising the `FAILED`
timed-out-and-terminated outcome; a zero worker timeout with no
override leaves the deadline unset, and with no deadline the reaper
never terminates a process (any outcome it synthesises has the
`terminate` flag false). -/
theorem purgeChild_timeout_spec :
    ∀ (now wt d t : Nat) (tid : String) (ec : Int) (alive : Bool),
      timeoutTime now (wt + 1) none = some (now + (wt + 1))
    ∧ timeoutTime now wt (some (d + 1)) = some (now + (d + 1))
    ∧ timeoutTime now 0 none = none
    ∧ purgeChild (t + d + 1) tid true ec (some t)
        = some (true,
            { task_id := tid, status := .FAILED
              expl := "Worker task " ++ tid
                ++ " timed out and was terminated."
              missing := [], new_deps := [] })
    ∧ (purgeChild now tid alive ec none).all (fun x => !x.1) = true := by
  intro now wt d t tid ec alive
  refine ⟨?_, ?_, ?_, ?_, ?_⟩
  · simp [timeoutTime]
  · simp [timeoutTime]
  · simp [timeoutTime]
  · simp [purgeChild]
    omega
  · by_cases h : alive = false ∧ ec ≠ 0 <;> simp [purgeChild, h]

end Luigi

namespace Luigi

/-- C3 counterexample: for a generator task that yields a single batch
containing one already-complete dependency, the interim `RUNNING` tuple
the executor puts on the result queue carries the batch's
`(module, family, params)` triple as its `new_deps` — not `[]` as the
claim states (the code resets `new_deps` to `[]` only after this put,
so `[]` shows up in the final `DONE` tuple instead). -/
theorem taskProcessGenRun_running_carries_new_deps :
    taskProcessGenRun "T" "null" [[{ task_module := "m", task_family := "f",
                                     params := [], complete := true }]]
      = [{ task_id := "T", status := .RUNNING, expl := "", missing := [],
           new_deps := [("m", "f", [])] },
         { task_id := "T", status := .DONE, expl := "null", missing := [],
           new_deps := [] }]
  ∧ ([("m", "f", [])] :
      List (String × String × List (String × String))) ≠ [] :=
  ⟨rfl, by simp⟩

/-- C3 amended: the executor drives a generator task batch by batch;
when every task of the pulled batch is complete it pushes an interim
outcome with status `RUNNING`, empty explanation and `new_deps` equal
to the flattened batch's triples (not `[]`; `new_deps` is reset to `[]`
only after the put) and keeps driving; when some task of the batch is
incomplete it pushes an outcome with status `SUSPENDED` and `new_deps`
equal to the flattened batch's triples and exits; when the generator is
exhausted the final outcome is `DONE` with `new_deps = []`. -/
theorem taskProcessGenRun_spec :
    ∀ (tid sj : String) (batch : List BatchTask)
      (rest : List (List BatchTask)),
      taskProcessGenRun tid sj []
        = [{ task_id := tid, status := .DONE, expl := sj, missing := [],
             new_deps := [] }]
    ∧ (batch.all (fun t => t.complete) = true →
        taskProcessGenRun tid sj (batch :: rest)
          = { task_id := tid, status := .RUNNING, expl := "",
              missing := [], new_deps := batch.map toTriple }
            :: taskProcessGenRun tid sj rest)
    ∧ (batch.all (fun t => t.complete) = false →
        taskProcessGenRun tid sj (batch :: rest)
          = [{ task_id := tid, status := .SUSPENDED, expl := "",
               missing := [], new_deps := batch.map toTriple }]) := by
  intro tid sj batch rest
  refine ⟨rfl, ?_, ?_⟩ <;> intro h <;> simp [taskProcessGenRun, h]

/-- Witness for the amended C3 theorem at concrete batches. -/
theorem taskProcessGenRun_spec_witness :
    taskProcessGenRun "A" "s" [[{ task_module := "m", task_family := "f",
                                  params := [], complete := true }]]
      = { task_id := "A", status := .RUNNING, expl := "", missing := [],
          new_deps := [{ task_module := "m", task_family := "f",
                         params := [], complete := true }].map toTriple }
        :: taskProcessGenRun "A" "s" []
  ∧ taskProcessGenRun "B" "s" [[{ task_module := "m", task_family := "f",
                                  params := [], complete := false }]]
      = [{ task_id := "B", status := .SUSPENDED, expl := "", missing := [],
           new_deps := [{ task_module := "m", task_family := "f",
                          params := [], complete := false }].map toTriple }] :=
  ⟨(taskProcessGenRun_spec "A" "s"
      [{ task_module := "m", task_family := "f",
         params := [], complete := true }] []).2.1 rfl,
   (taskProcessGenRun_spec "B" "s"
      [{ task_module := "m", task_family := "f",
         params := [], complete := false }] []).2.2 rfl⟩

end Luigi

namespace Luigi

/-- The characters of a string concatenation. -/
theorem strDataAppend (a b : String) : (a ++ b).data = a.data ++ b.data :=
  rfl

/-- A string `b` is a contiguous substring of `a ++ (b ++ c)`. -/
theorem data_infix_mid (a b c : String) : b.data <:+: (a ++ (b ++ c)).data :=
  ⟨a.data, c.data, by simp [strDataAppend]⟩

set_option maxRecDepth 40000

/-- C6 counterexample: with exactly one incomplete dependency the
executor's explanation embeds the singular message
`"Unfulfilled dependency at run time: A"`, and the claimed plural text
`"Unfulfilled dependencies at run time: "` does not occur in it. -/
theorem taskProcessCheckDeps_singular :
    taskProcessCheckDeps "T" [{ task_id := "A", complete := false }]
      = some { task_id := "T", status := .FAILED,
               expl := wrapOnFailure "Unfulfilled dependency at run time: A",
               missing := ["A"], new_deps := [] }
  ∧ ¬ ("Unfulfilled dependencies at run time: ".data
        <:+: (wrapOnFailure "Unfulfilled dependency at run time: A").data) :=
  ⟨rfl, by decide⟩

/-- C6 amended: for an ordinary task the executor re-checks `complete()`
on every declared dependency before calling `run()`; when none is
incomplete it proceeds to `run()`, and when some are incomplete it does
not invoke `run()` and pushes an outcome with status `FAILED`, `missing`
exactly the incomplete dependency ids, and an explanation embedding
`"Unfulfilled dependency at run time: "` followed by the id when exactly
one dependency is incomplete, and
`"Unfulfilled dependencies at run time: "` followed by the ids when two
or more are. -/
theorem taskProcessCheckDeps_spec :
    ∀ (tid : String) (deps : List DepCheck),
      (missingOf deps = [] → taskProcessCheckDeps tid deps = none)
    ∧ (missingOf deps ≠ [] →
        taskProcessCheckDeps tid deps
          = some { task_id := tid, status := .FAILED,
                   expl := wrapOnFailure (unfulfilledMsg (missingOf deps)),
                   missing := missingOf deps, new_deps := [] })
    ∧ ((missingOf deps).length = 1 →
        "Unfulfilled dependency at run time: ".data
          <:+: (wrapOnFailure (unfulfilledMsg (missingOf deps))).data)
    ∧ (2 ≤ (missingOf deps).length →
        "Unfulfilled dependencies at run time: ".data
          <:+: (wrapOnFailure (unfulfilledMsg (missingOf deps))).data) := by
  intro tid deps
  refine ⟨?_, ?_, ?_, ?_⟩
  · intro h
    simp [taskProcessCheckDeps, h]
  · intro h
    simp [taskProcessCheckDeps, List.isEmpty_iff, h]
  · intro h
    match hm : missingOf deps with
    | [m] =>
      have h1 : wrapOnFailure (unfulfilledMsg [m])
          = "Traceback (most recent call last):\nRuntimeError: "
            ++ ("Unfulfilled dependency at run time: " ++ (m ++ "\n")) := by
        simp [wrapOnFailure, unfulfilledMsg, joinComma]
        rfl
      rw [h1]
      exact data_infix_mid _ _ _
    | [] => simp [hm] at h
    | m :: m' :: rest => simp [hm] at h
  · intro h
    match hm : missingOf deps with
    | m :: m' :: rest =>
      have h1 : wrapOnFailure (unfulfilledMsg (m :: m' :: rest))
          = "Traceback (most recent call last):\nRuntimeError: "
            ++ ("Unfulfilled dependencies at run time: "
                ++ (joinComma (m :: m' :: rest) ++ "\n")) := by
        simp [wrapOnFailure, unfulfilledMsg]
        rfl
      rw [h1]
      exact data_infix_mid _ _ _
    | [] => simp [hm] at h
    | [m] => simp [hm] at h

/-- Witness for the amended C6 theorem at one and two missing deps. -/
theorem taskProcessCheckDeps_spec_witness :
    taskProcessCheckDeps "T" [{ task_id := "A", complete := false }]
      = some { task_id := "T", status := .FAILED,
               expl := wrapOnFailure (unfulfilledMsg
                 (missingOf [{ task_id := "A", complete := false }])),
               missing := missingOf [{ task_id := "A", complete := false }],
               new_deps := [] }
  ∧ "Unfulfilled dependencies at run time: ".data
      <:+: (wrapOnFailure (unfulfilledMsg
        (missingOf [{ task_id := "A", complete := false },
                    { task_id := "B", complete := false }]))).data :=
  ⟨((taskProcessCheckDeps_spec "T"
      [{ task_id := "A", complete := false }]).2.1 (by decide)),
   ((taskProcessCheckDeps_spec "T"
      [{ task_id := "A", complete := false },
       { task_id := "B", complete := false }]).2.2.2 (by decide))⟩

end Luigi

namespace Luigi

/-- C7: the decision function `_add` agrees with the claimed policy on
every input: complete tasks register as `DONE`, not runnable, no deps,
with `DEPENDENCY_PRESENT`; incomplete tasks without `run()` register as
`PENDING` with `runnable = retry-external-tasks`, no deps, with
`DEPENDENCY_MISSING`; other tasks register as `PENDING`, runnable, with
their declared deps; and a disabled task's status is overridden to
`DISABLED` in every branch. -/
theorem addDecision_meets_spec :
    ∀ (is_complete has_run disabled retry_external_tasks : Bool)
      (deps : List String),
      addDecision is_complete has_run disabled retry_external_tasks deps
        = addDecisionSpec is_complete has_run disabled retry_external_tasks
            deps := by
  intro ic hr dis retry deps
  cases ic <;> cases hr <;> cases dis <;>
    simp [addDecision, addDecisionSpec]

end Luigi

namespace Luigi

theorem enqueueDeps_preserves (env : List GTask) :
    ∀ (ids : List String) (s : AddState),
      (enqueueDeps env s ids).scheduled = s.scheduled
    ∧ (enqueueDeps env s ids).events = s.events
    ∧ (enqueueDeps env s ids).add_succeeded = s.add_succeeded := by
  intro ids
  induction ids with
  | nil => intro s; exact ⟨rfl, rfl, rfl⟩
  | cons id rest ih =>
    intro s
    rw [enqueueDeps]
    cases envLookup env id with
    | none => exact ih s
    | some d =>
      by_cases hc : d.task_id ∈ s.seen
      · simpa [hc] using ih s
      · simpa [hc] using ih _

end Luigi

namespace Luigi

theorem enqueueDeps_inv (env : List GTask) :
    ∀ (ids : List String) (s : AddState) (X : List String),
      (queueIds s ++ X).Nodup →
      (∀ id ∈ queueIds s ++ X, id ∈ s.seen) →
      ((queueIds (enqueueDeps env s ids) ++ X).Nodup
       ∧ ∀ id ∈ queueIds (enqueueDeps env s ids) ++ X,
           id ∈ (enqueueDeps env s ids).seen) := by
  intro ids
  induction ids with
  | nil => intro s X h1 h2; exact ⟨h1, h2⟩
  | cons id rest ih =>
    intro s X h1 h2
    rw [enqueueDeps]
    cases envLookup env id with
    | none => exact ih s X h1 h2
    | some d =>
      dsimp only
      by_cases hc : d.task_id ∈ s.seen
      · have hcc : s.seen.contains d.task_id = true := by simpa using hc
        rw [if_pos hcc]
        exact ih s X h1 h2
      · have hcc : ¬ s.seen.contains d.task_id = true := by simpa using hc
        rw [if_neg hcc]
        apply ih
        · refine List.nodup_cons.mpr ⟨fun hmem => hc (h2 _ hmem), h1⟩
        · intro i hi
          rcases List.mem_cons.mp hi with h | h
          · exact List.mem_cons.mpr (Or.inl h)
          · exact List.mem_cons.mpr (Or.inr (h2 i h))

end Luigi

namespace Luigi

theorem perm_rotate (tid : String) (l1 l2 : List String) :
    (tid :: (l1 ++ l2)).Perm (l1 ++ (l2 ++ [tid])) := by
  rw [← List.append_assoc]
  exact (List.perm_append_singleton tid (l1 ++ l2)).symm

theorem reg_inv (s2 : AddState) (tid : String) (sch : List String)
    (hsch : s2.scheduled = sch)
    (hN : (queueIds s2 ++ (sch ++ [tid])).Nodup)
    (hM : ∀ id ∈ queueIds s2 ++ (sch ++ [tid]), id ∈ s2.seen) :
    (queueIds { s2 with scheduled := s2.scheduled ++ [tid] }
      ++ ({ s2 with scheduled := s2.scheduled ++ [tid] } :
            AddState).scheduled).Nodup
    ∧ ∀ id ∈ queueIds { s2 with scheduled := s2.scheduled ++ [tid] }
        ++ ({ s2 with scheduled := s2.scheduled ++ [tid] } :
              AddState).scheduled,
        id ∈ ({ s2 with scheduled := s2.scheduled ++ [tid] } :
                AddState).seen := by
  constructor
  · show (queueIds s2 ++ (s2.scheduled ++ [tid])).Nodup
    rw [hsch]; exact hN
  · intro i hi
    have hi2 : i ∈ queueIds s2 ++ (s2.scheduled ++ [tid]) := hi
    rw [hsch] at hi2
    exact hM i hi2

theorem addItem_inv (env : List GTask) (limit : Option Nat) (retry : Bool)
    (s : AddState) (task : GTask) (icv : CompleteValue)
    (h1 : (task.task_id :: (queueIds s ++ s.scheduled)).Nodup)
    (h2 : ∀ id ∈ task.task_id :: (queueIds s ++ s.scheduled), id ∈ s.seen) :
    (queueIds (addItem env limit retry s task icv)
      ++ (addItem env limit retry s task icv).scheduled).Nodup
    ∧ ∀ id ∈ queueIds (addItem env limit retry s task icv)
        ++ (addItem env limit retry s task icv).scheduled,
        id ∈ (addItem env limit retry s task icv).seen := by
  have h1' : (queueIds s ++ s.scheduled).Nodup := (List.nodup_cons.mp h1).2
  have h2' : ∀ id ∈ queueIds s ++ s.scheduled, id ∈ s.seen :=
    fun id hid => h2 id (List.mem_cons_of_mem _ hid)
  have hrot1 : (queueIds s ++ (s.scheduled ++ [task.task_id])).Nodup :=
    (perm_rotate task.task_id (queueIds s) s.scheduled).nodup h1
  have hrot2 : ∀ id ∈ queueIds s ++ (s.scheduled ++ [task.task_id]),
      id ∈ s.seen := fun id hid =>
    h2 id ((perm_rotate task.task_id (queueIds s) s.scheduled).mem_iff.mpr hid)
  rw [addItem.eq_def]
  split
  · exact ⟨h1', h2'⟩
  · cases icv with
    | vTraceback t => exact ⟨h1', h2'⟩
    | vOther r => exact ⟨h1', h2'⟩
    | vTrue =>
      dsimp only [addDecision]
      exact ⟨hrot1, hrot2⟩
    | vFalse =>
      dsimp only [addDecision]
      by_cases hr : task.has_run
      · simp only [hr, Bool.not_true, Bool.false_eq_true, if_false]
        have h := enqueueDeps_inv env task.deps
          { queue := s.queue, seen := s.seen, scheduled := s.scheduled,
            events := s.events ++ (task.deps.map (fun _ => EventKind.DEPENDENCY_DISCOVERED)).map (fun e => (task.task_id, e)),
            add_succeeded := s.add_succeeded }
          (s.scheduled ++ [task.task_id]) hrot1 hrot2
        have hp := enqueueDeps_preserves env task.deps
          { queue := s.queue, seen := s.seen, scheduled := s.scheduled,
            events := s.events ++ (task.deps.map (fun _ => EventKind.DEPENDENCY_DISCOVERED)).map (fun e => (task.task_id, e)),
            add_succeeded := s.add_succeeded }
        exact reg_inv _ task.task_id s.scheduled hp.1 h.1 h.2
      · simp only [hr, Bool.not_false, if_true]
        exact ⟨hrot1, hrot2⟩

end Luigi

namespace Luigi

theorem addLoop_inv (env : List GTask) (limit : Option Nat) (retry : Bool) :
    ∀ (fuel : Nat) (s : AddState),
      (queueIds s ++ s.scheduled).Nodup →
      (∀ id ∈ queueIds s ++ s.scheduled, id ∈ s.seen) →
      ((queueIds (addLoop env limit retry fuel s).1
         ++ (addLoop env limit retry fuel s).1.scheduled).Nodup
       ∧ ∀ id ∈ queueIds (addLoop env limit retry fuel s).1
           ++ (addLoop env limit retry fuel s).1.scheduled,
           id ∈ (addLoop env limit retry fuel s).1.seen) := by
  intro fuel
  induction fuel with
  | zero => intro s hN hM; exact ⟨hN, hM⟩
  | succ f ih =>
    intro s hN hM
    rw [addLoop]
    cases hq : s.queue with
    | nil =>
      exact ⟨hN, hM⟩
    | cons p rest =>
      obtain ⟨task, icv⟩ := p
      dsimp only
      have hN' : (task.task_id
          :: (queueIds { s with queue := rest } ++ s.scheduled)).Nodup := by
        simpa [queueIds, hq] using hN
      have hM' : ∀ id ∈ task.task_id
          :: (queueIds { s with queue := rest } ++ s.scheduled),
          id ∈ s.seen := by
        intro i hi
        apply hM
        simpa [queueIds, hq] using hi
      exact ih _ (addItem_inv env limit retry _ task icv hN' hM').1
        (addItem_inv env limit retry _ task icv hN' hM').2

end Luigi


namespace Luigi

theorem length_filter_mono {p q : String → Bool}
    (h : ∀ a, p a = true → q a = true) :
    ∀ l : List String, (l.filter p).length ≤ (l.filter q).length := by
  intro l
  induction l with
  | nil => simp
  | cons a rest ih =>
    by_cases hp : p a = true
    · simp only [List.filter_cons, hp, h a hp, if_true, List.length_cons]
      omega
    · by_cases hq : q a = true <;>
        simp only [List.filter_cons, hp, hq, if_true, if_false,
          Bool.false_eq_true, List.length_cons] <;> omega

theorem filter_unseen_cons (x : String) (seen : List String)
    (hseen : x ∉ seen) :
    ∀ l : List String, x ∈ l →
      (l.filter (fun id => !(x :: seen).contains id)).length + 1
        ≤ (l.filter (fun id => !seen.contains id)).length := by
  have hmono : ∀ a : String, (!(x :: seen).contains a) = true →
      (!seen.contains a) = true := by
    intro a ha
    simp at ha ⊢
    exact ha.2
  intro l
  induction l with
  | nil => intro h; cases h
  | cons a rest ih =>
    intro hl
    simp only [List.filter_cons]
    rcases List.mem_cons.mp hl with heq | ha
    · subst heq
      rw [if_neg (by simp), if_pos (by simp [hseen])]
      have := length_filter_mono hmono rest
      simp only [List.length_cons]
      omega
    · by_cases ha2 : (!(x :: seen).contains a) = true
      · rw [if_pos ha2, if_pos (hmono a ha2)]
        have := ih ha
        simp only [List.length_cons]
        omega
      · rw [if_neg ha2]
        by_cases hold : (!seen.contains a) = true
        · rw [if_pos hold]
          have := ih ha
          simp only [List.length_cons]
          omega
        · rw [if_neg hold]
          exact ih ha

end Luigi

namespace Luigi

theorem enqueueDeps_phi (env : List GTask) :
    ∀ (ids : List String) (s : AddState),
      phi env (enqueueDeps env s ids) ≤ phi env s := by
  intro ids
  induction ids with
  | nil => intro s; exact le_refl _
  | cons id rest ih =>
    intro s
    rw [enqueueDeps]
    cases h : envLookup env id with
    | none => exact ih s
    | some d =>
      dsimp only
      by_cases hc : d.task_id ∈ s.seen
      · have hcc : s.seen.contains d.task_id = true := by simpa using hc
        rw [if_pos hcc]
        exact ih s
      · have hcc : ¬ s.seen.contains d.task_id = true := by simpa using hc
        rw [if_neg hcc]
        refine le_trans (ih _) ?_
        have hdmem : d.task_id ∈ env.map (fun t => t.task_id) := by
          have hd : d ∈ env := by
            have := List.find?_some h
            exact List.mem_of_find?_eq_some h
          exact List.mem_map_of_mem _ hd
        have hcount := filter_unseen_cons d.task_id s.seen hc
          (env.map fun t => t.task_id) hdmem
        show ((d, d.complete_value) :: s.queue).length
            + 2 * unseenCount env (d.task_id :: s.seen)
          ≤ s.queue.length + 2 * unseenCount env s.seen
        unfold unseenCount at hcount ⊢
        simp only [List.length_cons]
        omega

theorem addItem_phi (env : List GTask) (limit : Option Nat) (retry : Bool)
    (s : AddState) (task : GTask) (icv : CompleteValue) :
    phi env (addItem env limit retry s task icv) ≤ phi env s := by
  rw [addItem.eq_def]
  split
  · exact le_refl _
  · cases icv with
    | vTraceback t => exact le_refl _
    | vOther r => exact le_refl _
    | vTrue =>
      dsimp only [addDecision]
      exact le_refl _
    | vFalse =>
      dsimp only [addDecision]
      by_cases hr : task.has_run
      · simp only [hr, Bool.not_true, Bool.false_eq_true, if_false]
        exact enqueueDeps_phi env task.deps _
      · simp only [hr, Bool.not_false, if_true]
        exact le_refl _

theorem addLoop_term (env : List GTask) (limit : Option Nat) (retry : Bool) :
    ∀ (fuel : Nat) (s : AddState), phi env s ≤ fuel →
      (addLoop env limit retry fuel s).2 = true := by
  intro fuel
  induction fuel with
  | zero =>
    intro s h
    have hq : s.queue.length = 0 := by
      unfold phi at h
      omega
    rw [addLoop]
    simp [List.isEmpty_iff, List.length_eq_zero.mp hq]
  | succ f ih =>
    intro s h
    rw [addLoop]
    cases hq : s.queue with
    | nil => rfl
    | cons p rest =>
      obtain ⟨task, icv⟩ := p
      dsimp only
      apply ih
      have h1 := addItem_phi env limit retry
        { s with queue := rest } task icv
      have h2 : phi env { s with queue := rest } + 1 = phi env s := by
        unfold phi
        simp [hq]
        omega
      omega

end Luigi

namespace Luigi

/-- C9: for every dependency graph (cyclic ones included) the drain
loop of `Worker.add` empties its queue within `2·|env| + 3` iterations
— the `seen` set admits each `task_id` at most once — and the ids it
registers with the scheduler are pairwise distinct, so each is
registered exactly once; on the concrete cycle `A → B → A` the
traversal terminates with exactly the registrations `A` then `B`. -/
theorem workerAdd_cycle_terminates :
    ∀ (env : List GTask) (limit : Option Nat) (retry : Bool) (root : GTask),
      ((workerAdd env limit retry (2 * env.length + 3) root).2 = true
    ∧ (workerAdd env limit retry (2 * env.length + 3) root).1.scheduled.Nodup)
    ∧ (workerAdd cycleEnv none false 7 taskA).1.scheduled = ["A", "B"] := by
  intro env limit retry root
  refine ⟨⟨?_, ?_⟩, ?_⟩
  · rw [workerAdd]
    apply addLoop_term
    have hle : unseenCount env [root.task_id] ≤ env.length := by
      unfold unseenCount
      refine le_trans (List.length_filter_le _ _) ?_
      rw [List.length_map]
    show 1 + 2 * unseenCount env [root.task_id] ≤ 2 * env.length + 3
    omega
  · have h := addLoop_inv env limit retry (2 * env.length + 3)
      { queue := [(root, root.complete_value)], seen := [root.task_id],
        scheduled := [], events := [], add_succeeded := true }
      (by simp [queueIds]) (by simp [queueIds])
    exact h.1.of_append_right
  · rfl

end Luigi

namespace Luigi

theorem addLoop_limit_one (env : List GTask) (retry : Bool) (rid : String) :
    ∀ (fuel : Nat) (s : AddState), s.scheduled = [rid] →
      (addLoop env (some 1) retry fuel s).1.scheduled = [rid] := by
  intro fuel
  induction fuel with
  | zero => intro s h; exact h
  | succ f ih =>
    intro s h
    rw [addLoop]
    cases hq : s.queue with
    | nil => exact h
    | cons p rest =>
      obtain ⟨task, icv⟩ := p
      dsimp only
      apply ih
      have hcond : (match (some 1 : Option Nat) with
          | some l =>
            decide (l ≤ ({ s with queue := rest } : AddState).scheduled.length)
          | none => false) = true := by
        simp [h]
      rw [addItem.eq_def, if_pos hcond]
      exact h

/-- C8: the task-limit guard at the top of `_add` makes `_add` register
nothing and yield nothing — it returns with the loop state untouched —
whenever `task_limit` is set and the scheduled set has reached it; in
particular `Worker.add` on a root task with `task_limit = 1` (and a
boolean root completeness check) drains its queue and registers exactly
the root's `task_id`, none of its dependencies. -/
theorem taskLimit_guard :
    ∀ (env : List GTask) (retry : Bool) (l : Nat) (s : AddState)
      (task : GTask) (icv : CompleteValue) (root : GTask),
      (l ≤ s.scheduled.length → addItem env (some l) retry s task icv = s)
    ∧ ((root.complete_value = .vTrue ∨ root.complete_value = .vFalse) →
        (workerAdd env (some 1) retry (2 * env.length + 3) root).2 = true
        ∧ (workerAdd env (some 1) retry (2 * env.length + 3) root).1.scheduled
            = [root.task_id]) := by
  intro env retry l s task icv root
  constructor
  · intro h
    rw [addItem.eq_def, if_pos (by simpa using h)]
  · intro hcv
    constructor
    · rw [workerAdd]
      apply addLoop_term
      have hle : unseenCount env [root.task_id] ≤ env.length := by
        unfold unseenCount
        refine le_trans (List.length_filter_le _ _) ?_
        rw [List.length_map]
      show 1 + 2 * unseenCount env [root.task_id] ≤ 2 * env.length + 3
      omega
    · rw [workerAdd]
      show (addLoop env (some 1) retry ((2 * env.length + 2) + 1)
        { queue := [(root, root.complete_value)], seen := [root.task_id],
          scheduled := [], events := [], add_succeeded := true }).1.scheduled
        = [root.task_id]
      rw [addLoop]
      dsimp only
      apply addLoop_limit_one
      rcases hcv with h | h <;> rw [h, addItem.eq_def] <;>
        by_cases hr : root.has_run <;>
          simp [addDecision, hr, (enqueueDeps_preserves env root.deps _).1]

/-- Witness for the C8 theorem: the guard is a no-op on a state that
already scheduled one task with `task_limit = 1`, and `add` on the
cyclic root `A` with `task_limit = 1` registers exactly `A`. -/
theorem taskLimit_guard_witness :
    addItem cycleEnv (some 1) false
      { queue := [], seen := ["A", "X"], scheduled := ["X"], events := [],
        add_succeeded := true } taskA .vFalse
      = { queue := [], seen := ["A", "X"], scheduled := ["X"], events := [],
          add_succeeded := true }
  ∧ ((workerAdd cycleEnv (some 1) false (2 * cycleEnv.length + 3) taskA).2
        = true
    ∧ (workerAdd cycleEnv (some 1) false
        (2 * cycleEnv.length + 3) taskA).1.scheduled = [taskA.task_id]) :=
  ⟨(taskLimit_guard cycleEnv false 1
      { queue := [], seen := ["A", "X"], scheduled := ["X"], events := [],
        add_succeeded := true } taskA .vFalse taskA).1 (by simp),
   (taskLimit_guard cycleEnv false 1
      { queue := [], seen := ["A", "X"], scheduled := ["X"], events := [],
        add_succeeded := true } taskA .vFalse taskA).2 (Or.inr rfl)⟩

/-- C10: a `complete()` value that is neither `True` nor `False` (and
not a wrapped traceback) makes `_check_complete_value` raise, which
`_add` turns into the failed-completeness branch: `add_succeeded`
becomes false, `DEPENDENCY_MISSING` is emitted for the task, and `_add`
returns without yielding deps or registering anything; consequently
`Worker.add` on such a root returns false having registered nothing
with the scheduler. -/
theorem add_non_boolean_complete :
    ∀ (env : List GTask) (retry : Bool) (s : AddState) (task : GTask)
      (rep : String) (fuel : Nat) (tid : String) (hr dis : Bool)
      (ds : List String),
      addItem env none retry s task (.vOther rep)
        = { s with add_succeeded := false,
                   events := s.events
                     ++ [(task.task_id, .DEPENDENCY_MISSING)] }
    ∧ workerAdd env none retry (fuel + 1)
        { task_id := tid, complete_value := .vOther rep, has_run := hr,
          disabled := dis, deps := ds }
        = ({ queue := [], seen := [tid], scheduled := [],
             events := [(tid, .DEPENDENCY_MISSING)],
             add_succeeded := false }, true) := by
  intro env retry s task rep fuel tid hr dis ds
  constructor
  · rfl
  · cases fuel with
    | zero => rfl
    | succ f => rfl

end Luigi
